import Mathlib

/-
  Verification of the ember-lifeline `run-task` module (addon/run-task.ts).

  The module is stateful JavaScript built on the Ember run loop primitives
  `later`, `schedule`, `throttle`, `debounce` and `cancel`.  We embed it as a
  state-passing semantics: one record `St` holds

    * the primitive scheduler's pending timers and pending debounce entries,
    * the per-owner `registeredTimers` set and `registeredDebounces` map of
      the module,
    * the owners' destroyed flags and callable properties,
    * the disposables registered for the owners' destruction hooks, and
    * an event trace recording removals and task invocations in order.

  Each public entry point (`runTask`, `scheduleTask`, `throttleTask`,
  `debounceTask`, `cancelTask`, `cancelDebounce`) is a function
  `... → St → Except Err α × St`; the `assert` calls of the source become
  early returns of `Except.error` carrying the unchanged state, mirroring a
  synchronous throw before any mutation (in the source every assertion
  precedes every mutation).  Timer firing is a separate step (`fireTimer`,
  `fireDebounce`) that interprets the closures the source passes to the
  primitives.
-/

set_option maxHeartbeats 1000000
set_option linter.unusedVariables false

/-- Identity of an owner object.  Owners are identity-compared. -/
abbrev OwnerId := Nat

/-- Identifier issued by the primitive scheduler (an `EmberRunTimer`). -/
abbrev TimerId := Nat

/-- Identity of a callable value (a concrete function object). -/
abbrev FnId := Nat

/-- A JavaScript value, as far as the validation code inspects values:
`typeof v === 'string'` distinguishes `str`, and `Number.isInteger v`
distinguishes `int` from everything else (`nonIntNum` stands for any number
that is not an integer, such as `1.5` or `NaN`). -/
inductive JsVal where
  | str (s : String)
  | int (n : Int)
  | nonIntNum
  | fnv (f : FnId)
  | undef
deriving DecidableEq, Repr

/-- The JavaScript `Number.isInteger` test used by the `wait`/`timeout`
assertions of `throttleTask` and `debounceTask`. -/
def jsIsInteger : JsVal → Bool
  | .int _ => true
  | _ => false

/-- The error taxonomy of the module: each `assert` message of the source
corresponds to one constructor (spec section 7 names them). -/
inductive Err where
  | destroyedOwner
  | invalidTask
  | invalidQueue
  | reservedQueue
  | invalidDelay
deriving DecidableEq, Repr

/-- The `TaskOrName` argument of `runTask`/`scheduleTask`: either a function
value or the name of a property on the owner. -/
inductive TaskOrName where
  | task (f : FnId)
  | name (n : String)
deriving DecidableEq, Repr

/-- One observable event: a wrapper deleting its own id from the owner's
timer set, a debounce wrapper deleting its map entry, or a task invocation
(with the function identity it resolved to and the arguments passed). -/
inductive Event where
  | removedTimer (o : OwnerId) (id : TimerId)
  | removedDebounce (o : OwnerId) (n : String)
  | invoked (o : OwnerId) (f : FnId) (args : List JsVal)
  | resolveFailed (o : OwnerId)
deriving DecidableEq, Repr

/-- What a pending primitive timer will do when it fires: the closure
`runTask` passes to `later`, the wrapper `scheduleTask` passes to
`schedule`, or the expiry of a `throttle` window (which runs nothing). -/
inductive TimerKind where
  | runTaskFire (o : OwnerId) (t : TaskOrName)
  | scheduleFire (o : OwnerId) (t : TaskOrName) (args : List JsVal)
  | throttleExpire (o : OwnerId) (n : String)
deriving DecidableEq, Repr

/-- The wrapped callback created by `debounceTask` for a `(owner, name)`
pair.  `mkId` is the closure's identity: the primitive `debounce` recognises
"the same debounce" by function identity. -/
structure DebouncedTask where
  owner : OwnerId
  dname : String
  mkId : Nat
deriving DecidableEq, Repr

/-- A pending entry inside the primitive scheduler's debounce mechanism:
the current timer, its target/function pair, and the captured arguments of
the most recent call. -/
structure PrimDebounce where
  timerId : TimerId
  target : OwnerId
  fn : DebouncedTask
  args : List JsVal
deriving DecidableEq, Repr

/-- The `PendingDebounce` interface of the source: the wrapped callback and
the freshest cancel id for a name. -/
structure PendingDebounce where
  debouncedTask : DebouncedTask
  cancelId : TimerId
deriving DecidableEq, Repr

/-- A disposable registered for an owner's destruction hook: the closure
returned by `getTimersDisposable` or by `getDebouncesDisposable`.  Each
closure captures the owner's collection, which we key by the owner. -/
inductive Disposable where
  | timers (o : OwnerId)
  | debounces (o : OwnerId)
deriving DecidableEq, Repr

/-- The owner a disposable belongs to. -/
def Disposable.ownerOf : Disposable → OwnerId
  | .timers o => o
  | .debounces o => o

/-- The primitive scheduler's state: a fresh-id counter, the pending plain
timers, and the pending debounce entries. -/
structure Sched where
  nextId : Nat
  timers : List (TimerId × TimerKind)
  debounces : List PrimDebounce
deriving DecidableEq, Repr

/-- The whole system state. -/
structure St where
  sched : Sched
  destroyed : List OwnerId
  props : List (OwnerId × String × FnId)
  registeredTimers : List (OwnerId × List TimerId)
  registeredDebounces : List (OwnerId × List (String × PendingDebounce))
  disposables : List Disposable
  trace : List Event
deriving DecidableEq, Repr

/-- Look up a callable property `obj[n]` on an owner (`none` when the
property is absent or not a function). -/
def lookupProp (ps : List (OwnerId × String × FnId)) (o : OwnerId) (n : String) : Option FnId :=
  (ps.find? (fun p => decide (p.1 = o) && decide (p.2.1 = n))).map (fun p => p.2.2)

/-- Reassign the named property of an owner to a new callable. -/
def setProp (o : OwnerId) (n : String) (g : FnId) (s : St) : St :=
  { s with props := (o, n, g) :: s.props }

/-- JavaScript `Set.prototype.add`: append unless already present. -/
def setAdd (x : TimerId) (xs : List TimerId) : List TimerId :=
  if x ∈ xs then xs else xs ++ [x]

/-- JavaScript `Set.prototype.delete` (sets hold no duplicates, so removing
every occurrence is the same operation). -/
def setDelete (x : TimerId) (xs : List TimerId) : List TimerId :=
  xs.filter (fun y => decide (y ≠ x))

/-- Replace the value stored under the first matching key of an association
list, leaving the list unchanged when the key is absent. -/
def alistUpdate {α : Type} (o : OwnerId) (f : α → α) : List (OwnerId × α) → List (OwnerId × α)
  | [] => []
  | (k, v) :: rest => if k = o then (k, f v) :: rest else (k, v) :: alistUpdate o f rest

/-- Look up a key in an association list. -/
def alistGet {α : Type} (o : OwnerId) (l : List (OwnerId × α)) : Option α :=
  (l.find? (fun p => decide (p.1 = o))).map Prod.snd

/-- `Map.prototype.set` on a string-keyed map: replace or append. -/
def mapSetKey (n : String) (e : PendingDebounce) : List (String × PendingDebounce) → List (String × PendingDebounce)
  | [] => [(n, e)]
  | (k, v) :: rest => if k = n then (k, e) :: rest else (k, v) :: mapSetKey n e rest

/-- `Map.prototype.delete` on a string-keyed map. -/
def mapDeleteKey (n : String) (m : List (String × PendingDebounce)) : List (String × PendingDebounce) :=
  m.filter (fun p => decide (p.1 ≠ n))

/-- `Map.prototype.get` on a string-keyed map. -/
def mapGetKey (n : String) (m : List (String × PendingDebounce)) : Option PendingDebounce :=
  (m.find? (fun p => decide (p.1 = n))).map Prod.snd

/-- The timer set currently tracked for an owner (empty when the owner has
no registry entry yet). -/
def timersOf (s : St) (o : OwnerId) : List TimerId :=
  (alistGet o s.registeredTimers).getD []

/-- The debounce map currently tracked for an owner (empty when absent). -/
def debouncesOf (s : St) (o : OwnerId) : List (String × PendingDebounce) :=
  (alistGet o s.registeredDebounces).getD []

/-- Mutate the timer set stored for an owner. -/
def updateTimers (o : OwnerId) (f : List TimerId → List TimerId) (s : St) : St :=
  { s with registeredTimers := alistUpdate o f s.registeredTimers }

/-- Mutate the debounce map stored for an owner. -/
def updateDebounces (o : OwnerId) (f : List (String × PendingDebounce) → List (String × PendingDebounce)) (s : St) : St :=
  { s with registeredDebounces := alistUpdate o f s.registeredDebounces }

/-- The primitive `later`/`schedule`: allocate a fresh timer id and record a
pending timer with the given behaviour. -/
def primLater (k : TimerKind) (s : St) : TimerId × St :=
  (s.sched.nextId,
   { s with sched := { s.sched with
       nextId := s.sched.nextId + 1,
       timers := s.sched.timers ++ [(s.sched.nextId, k)] } })

/-- The primitive `cancel`: drop the pending timer or pending debounce with
the given id.  Safe no-op on an unknown, fired or already-canceled id. -/
def primCancel (id : TimerId) (s : St) : St :=
  { s with sched := { s.sched with
      timers := s.sched.timers.filter (fun p => decide (p.1 ≠ id)),
      debounces := s.sched.debounces.filter (fun d => decide (d.timerId ≠ id)) } }

/-- The primitive `debounce`: a repeated call with the same target and the
same function identity replaces the pending entry (rewiring the captured
arguments) and issues a fresh timer id; otherwise a new entry is created. -/
def primDebounce (target : OwnerId) (dt : DebouncedTask) (args : List JsVal) (s : St) : TimerId × St :=
  (s.sched.nextId,
   { s with sched := { s.sched with
       nextId := s.sched.nextId + 1,
       debounces :=
         s.sched.debounces.filter (fun d => decide (¬(d.target = target ∧ d.fn = dt)))
           ++ [⟨s.sched.nextId, target, dt, args⟩] } })

/-- Resolve a task against the owner at the current state.  Modelled from
the spec: a name resolves "to a callable property on the owner at call
time" (late binding). -/
def resolveTask (ps : List (OwnerId × String × FnId)) (o : OwnerId) : TaskOrName → Option FnId
  | .task f => some f
  | .name n => lookupProp ps o n

/-- The event produced by invoking a (late-bound) task. -/
def invokeEvent (ps : List (OwnerId × String × FnId)) (o : OwnerId) (t : TaskOrName) (args : List JsVal) : Event :=
  match resolveTask ps o t with
  | some f => .invoked o f args
  | none => .resolveFailed o

/-- The primitive `throttle` with a string method name (leading edge, the
Ember default): when no throttle window for `(target, name)` is active the
method is invoked immediately with the call's arguments and a window timer
is created; while a window is active the call is suppressed entirely and
the existing timer is returned. -/
def primThrottle (target : OwnerId) (n : String) (args : List JsVal) (s : St) : TimerId × St :=
  match s.sched.timers.find? (fun p => decide (p.2 = TimerKind.throttleExpire target n)) with
  | some p => (p.1, s)
  | none =>
    primLater (.throttleExpire target n)
      { s with trace := s.trace ++ [invokeEvent s.props target (.name n) args] }

/-- Modelled from the spec: `getTask` of `utils/get-task.ts` is not under
`src/`.  Per the spec it validates that a name denotes "a callable property
of `owner`, else fails with `InvalidTaskError`", and resolution of a name to
the callable happens "at fire time, not at schedule time", so the value it
returns is the still-unresolved task, re-resolved by `resolveTask` when the
wrapper runs. -/
def getTask (s : St) (o : OwnerId) (t : TaskOrName) : Except Err TaskOrName :=
  match t with
  | .task f => .ok (.task f)
  | .name n =>
    match lookupProp s.props o n with
    | some _ => .ok (.name n)
    | none => .error .invalidTask

/-- Modelled from the spec: `registerDisposable` of `utils/disposable.ts` is
not under `src/`.  Per the spec the host exposes a "register a cleanup
callback for this owner" hook; the callback is recorded and run later by
the owner's destruction hook. -/
def registerDisposable (d : Disposable) (s : St) : St :=
  { s with disposables := s.disposables ++ [d] }

/-- The module's `getTimers`: fetch the owner's timer set, creating it and
registering the timers disposable for the owner's destruction hook on
first use. -/
def getTimers (o : OwnerId) (s : St) : List TimerId × St :=
  match alistGet o s.registeredTimers with
  | some ts => (ts, s)
  | none =>
    ([], registerDisposable (Disposable.timers o)
           { s with registeredTimers := s.registeredTimers ++ [(o, [])] })

/-- The lazy creation of an owner's pending-debounce map inside
`debounceTask`, registering the debounces disposable on first use. -/
def getDebounces (o : OwnerId) (s : St) : List (String × PendingDebounce) × St :=
  match alistGet o s.registeredDebounces with
  | some m => (m, s)
  | none =>
    ([], registerDisposable (Disposable.debounces o)
           { s with registeredDebounces := s.registeredDebounces ++ [(o, [])] })

/-- `runTask(obj, taskOrName, timeout)`: assert the owner is not destroyed,
resolve/validate the task, then schedule via `later` a closure that deletes
its own id from the owner's set and invokes the task, and track the id.
The real-time delay value plays no role in the embedded semantics. -/
def runTask (o : OwnerId) (t : TaskOrName) (timeout : Int) (s : St) : Except Err TimerId × St :=
  if o ∈ s.destroyed then (.error .destroyedOwner, s)
  else
    match getTask s o t with
    | .error e => (.error e, s)
    | .ok tk =>
      let s1 := (getTimers o s).2
      let r := primLater (.runTaskFire o tk) s1
      (.ok r.1, updateTimers o (setAdd r.1) r.2)

/-- `scheduleTask(obj, queueName, taskOrName, ...args)`: assert the queue is
a string, is not `afterRender`, and the owner is not destroyed; then
schedule a wrapper capturing `args` at registration time and track the
id. -/
def scheduleTask (o : OwnerId) (queueName : JsVal) (t : TaskOrName) (args : List JsVal) (s : St) : Except Err TimerId × St :=
  match queueName with
  | .str q =>
    if q = "afterRender" then (.error .reservedQueue, s)
    else if o ∈ s.destroyed then (.error .destroyedOwner, s)
    else
      match getTask s o t with
      | .error e => (.error e, s)
      | .ok tk =>
        let s1 := (getTimers o s).2
        let r := primLater (.scheduleFire o tk args) s1
        (.ok r.1, updateTimers o (setAdd r.1) r.2)
  | _ => (.error .invalidQueue, s)

/-- `throttleTask(obj, taskName, ...throttleArgs)`: assert `obj[taskName]`
is a function and the owner is not destroyed, assert the trailing argument
is an integer (`Number.isInteger`), then call the primitive `throttle` and
track the returned id.  There is no self-cleaning wrapper. -/
def throttleTask (o : OwnerId) (taskName : String) (throttleArgs : List JsVal) (s : St) : Except Err TimerId × St :=
  if (lookupProp s.props o taskName).isNone then (.error .invalidTask, s)
  else if o ∈ s.destroyed then (.error .destroyedOwner, s)
  else if jsIsInteger (throttleArgs.getLast?.getD .undef) = false then (.error .invalidDelay, s)
  else
    let s1 := (getTimers o s).2
    let r := primThrottle o taskName throttleArgs.dropLast s1
    (.ok r.1, updateTimers o (setAdd r.1) r.2)

/-- `debounceTask(obj, name, ...debounceArgs)`: validate, lazily create the
owner's pending-debounce map, reuse the wrapped callback when an entry for
`name` is pending (otherwise create a fresh closure), obtain a fresh cancel
id from the primitive `debounce`, and store `{ debouncedTask, cancelId }`
under `name`. -/
def debounceTask (o : OwnerId) (n : String) (debounceArgs : List JsVal) (s : St) : Except Err Unit × St :=
  if (lookupProp s.props o n).isNone then (.error .invalidTask, s)
  else if o ∈ s.destroyed then (.error .destroyedOwner, s)
  else if jsIsInteger (debounceArgs.getLast?.getD .undef) = false then (.error .invalidDelay, s)
  else
    let p := getDebounces o s
    let q :=
      match mapGetKey n p.1 with
      | none =>
        ((⟨o, n, p.2.sched.nextId⟩ : DebouncedTask),
         { p.2 with sched := { p.2.sched with nextId := p.2.sched.nextId + 1 } })
      | some e => (e.debouncedTask, p.2)
    let r := primDebounce o q.1 debounceArgs.dropLast q.2
    (.ok (), updateDebounces o (mapSetKey n ⟨q.1, r.1⟩) r.2)

/-- `cancelTask(obj, cancelId)` (the two-argument form): delete the id from
the owner's tracked set and cancel it at the primitive scheduler. -/
def cancelTask (o : OwnerId) (cancelId : TimerId) (s : St) : St :=
  primCancel cancelId (updateTimers o (setDelete cancelId) (getTimers o s).2)

/-- The deprecated single-argument form `cancelTask(cancelId)`: only the
primitive cancel runs; no owner set can be scrubbed. -/
def cancelTaskSingle (cancelId : TimerId) (s : St) : St :=
  primCancel cancelId s

/-- `cancelDebounce(obj, name)`: a no-op when the owner has no registry
entry or no entry for `name` is pending; otherwise remove the entry and
cancel its stored id. -/
def cancelDebounce (o : OwnerId) (n : String) (s : St) : St :=
  match alistGet o s.registeredDebounces with
  | none => s
  | some m =>
    match mapGetKey n m with
    | none => s
    | some e => primCancel e.cancelId (updateDebounces o (mapDeleteKey n) s)

/-- Fire a pending plain timer.  `none` when no timer with this id is
pending (it already fired or was canceled).  The `runTask`/`scheduleTask`
wrappers first delete their own id from the owner's set and then invoke the
late-bound task; a throttle window expiry runs nothing. -/
def fireTimer (id : TimerId) (s : St) : Option St :=
  match s.sched.timers.find? (fun p => decide (p.1 = id)) with
  | none => none
  | some pk =>
    let s0 := { s with sched := { s.sched with
                  timers := s.sched.timers.filter (fun p => decide (p.1 ≠ id)) } }
    match pk.2 with
    | .runTaskFire o t =>
      let s1 := updateTimers o (setDelete id) s0
      some { s1 with trace := s1.trace ++ [.removedTimer o id, invokeEvent s1.props o t []] }
    | .scheduleFire o t args =>
      let s1 := updateTimers o (setDelete id) s0
      some { s1 with trace := s1.trace ++ [.removedTimer o id, invokeEvent s1.props o t args] }
    | .throttleExpire _ _ => some s0

/-- Fire a pending debounce timer.  The wrapped callback first deletes the
map entry for its name and then invokes `obj[name]` (looked up now) with
the arguments captured by the most recent call. -/
def fireDebounce (id : TimerId) (s : St) : Option St :=
  match s.sched.debounces.find? (fun d => decide (d.timerId = id)) with
  | none => none
  | some pd =>
    let s0 := { s with sched := { s.sched with
                  debounces := s.sched.debounces.filter (fun d => decide (d.timerId ≠ id)) } }
    let s1 := updateDebounces pd.fn.owner (mapDeleteKey pd.fn.dname) s0
    some { s1 with trace := s1.trace ++
             [.removedDebounce pd.fn.owner pd.fn.dname,
              invokeEvent s1.props pd.fn.owner (.name pd.fn.dname) pd.args] }

/-- The closure returned by `getTimersDisposable(obj, timers)`: run
`cancelTask(obj, cancelId)` for every tracked id, then clear the set. -/
def applyTimersDisposable (o : OwnerId) (s : St) : St :=
  updateTimers o (fun _ => []) ((timersOf s o).foldl (fun acc id => cancelTask o id acc) s)

/-- The closure returned by `getDebouncesDisposable(debounces)`: when the
map is empty do nothing; otherwise cancel every entry's stored id.  The
map itself is left as it is (the source has no `clear`). -/
def applyDebouncesDisposable (o : OwnerId) (s : St) : St :=
  (debouncesOf s o).foldl (fun acc p => primCancel p.2.cancelId acc) s

/-- Run one registered disposable. -/
def applyDisposable (s : St) : Disposable → St
  | .timers o => applyTimersDisposable o s
  | .debounces o => applyDebouncesDisposable o s

/-- Modelled from the spec: `runDisposables` of `utils/disposable.ts` is not
under `src/`.  Per the spec the destruction hook "walks both trackers and
cancels everything outstanding": it runs the disposables registered for the
owner, in registration order. -/
def runDisposables (o : OwnerId) (s : St) : St :=
  (s.disposables.filter (fun d => decide (d.ownerOf = o))).foldl applyDisposable s

/-- Well-formedness of the primitive scheduler: every pending id and every
closure identity was allocated below the fresh-id counter. -/
def SchedWF (s : St) : Prop :=
  (∀ p ∈ s.sched.timers, p.1 < s.sched.nextId) ∧
  (∀ d ∈ s.sched.debounces, d.timerId < s.sched.nextId ∧ d.fn.mkId < s.sched.nextId)

instance : DecidablePred SchedWF := fun s => by
  unfold SchedWF; infer_instance

/-- Whether a result is a success. -/
def exOk {α : Type} : Except Err α → Bool
  | .ok _ => true
  | .error _ => false

/-- A small concrete state for witnesses: owner `0` is alive and has a
callable property `"f"` (function identity `1`). -/
def st0 : St :=
  { sched := { nextId := 0, timers := [], debounces := [] },
    destroyed := [],
    props := [(0, "f", 1)],
    registeredTimers := [],
    registeredDebounces := [],
    disposables := [],
    trace := [] }

/-- The same state with owner `0` destroyed. -/
def stDead : St :=
  { st0 with destroyed := [0] }

/-- A state with one pending debounce for owner 0, built through the public
entry point. -/
def stDeb1 : St := (debounceTask 0 "f" [JsVal.str "a", JsVal.int 5] st0).2

/-- A concrete owner with one outstanding timer and one pending debounce. -/
def stTimerAndDeb : St :=
  (debounceTask 0 "f" [JsVal.str "a", JsVal.int 5] (runTask 0 (.task 1) 0 st0).2).2

/-- A state with one outstanding `runTask` timer for owner 0. -/
def stRunPend : St := (runTask 0 (.task 1) 0 st0).2

/-- A state with one pending `scheduleTask` wrapper for owner 0. -/
def stSchedPend : St := (scheduleTask 0 (JsVal.str "actions") (.task 1) [JsVal.str "x"] st0).2

/-- A state with a pending named `runTask` timer for owner 0. -/
def stNameRunPend : St := (runTask 0 (.name "f") 0 st0).2

/-- A state with a pending named `scheduleTask` wrapper for owner 0. -/
def stNameSchedPend : St :=
  (scheduleTask 0 (JsVal.str "actions") (.name "f") [JsVal.str "x"] st0).2

/-- A state with a fresh throttle window timer for owner 0. -/
def stThrottlePend : St := (throttleTask 0 "f" [JsVal.str "x", JsVal.int 5] st0).2

/-- A minimal state whose only content is one live owner with one callable
property. -/
def initOwner (o : OwnerId) (n : String) (f : FnId) : St :=
  { sched := { nextId := 0, timers := [], debounces := [] },
    destroyed := [],
    props := [(o, n, f)],
    registeredTimers := [],
    registeredDebounces := [],
    disposables := [],
    trace := [] }

/-- State after the first call of a three-call debounce burst. -/
def burst1 (o : OwnerId) (n : String) (f : FnId) (a1 : List JsVal) (w1 : Int) : St :=
  (debounceTask o n (a1 ++ [JsVal.int w1]) (initOwner o n f)).2

/-- State after the second call of the burst. -/
def burst2 (o : OwnerId) (n : String) (f : FnId) (a1 : List JsVal) (w1 : Int)
    (a2 : List JsVal) (w2 : Int) : St :=
  (debounceTask o n (a2 ++ [JsVal.int w2]) (burst1 o n f a1 w1)).2

/-- State after the third call of the burst. -/
def burst3 (o : OwnerId) (n : String) (f : FnId) (a1 : List JsVal) (w1 : Int)
    (a2 : List JsVal) (w2 : Int) (a3 : List JsVal) (w3 : Int) : St :=
  (debounceTask o n (a3 ++ [JsVal.int w3]) (burst2 o n f a1 w1 a2 w2)).2

/-- State after the burst's single pending debounce timer fires. -/
def burstFired (o : OwnerId) (n : String) (f : FnId) (a1 : List JsVal) (w1 : Int)
    (a2 : List JsVal) (w2 : Int) (a3 : List JsVal) (w3 : Int) : St :=
  (fireDebounce 3 (burst3 o n f a1 w1 a2 w2 a3 w3)).getD (initOwner o n f)

theorem alistGet_update_self {α : Type} (o : OwnerId) (f : α → α) (l : List (OwnerId × α)) :
    alistGet o (alistUpdate o f l) = (alistGet o l).map f := by
  induction l with
  | nil => rfl
  | cons hd tl ih =>
    obtain ⟨k, v⟩ := hd
    by_cases hk : k = o
    · subst hk
      simp [alistUpdate, alistGet, List.find?_cons]
    · simp [alistUpdate, alistGet, List.find?_cons, hk] at ih ⊢
      exact ih

theorem alistGet_append_none {α : Type} (o : OwnerId) (v : α) (l : List (OwnerId × α))
    (h : alistGet o l = none) : alistGet o (l ++ [(o, v)]) = some v := by
  simp only [alistGet, List.find?_append, Option.map_eq_none'] at h ⊢
  rw [h]
  simp [List.find?_cons]

theorem updateTimers_sched (o : OwnerId) (f : List TimerId → List TimerId) (s : St) :
    (updateTimers o f s).sched = s.sched := rfl

theorem cancelTask_sched_timers (o : OwnerId) (id : TimerId) (s : St) :
    (cancelTask o id s).sched.timers = s.sched.timers.filter (fun p => decide (p.1 ≠ id)) := by
  unfold cancelTask getTimers registerDisposable updateTimers primCancel
  cases alistGet o s.registeredTimers <;> rfl

theorem cancelTask_sched_debounces (o : OwnerId) (id : TimerId) (s : St) :
    (cancelTask o id s).sched.debounces = s.sched.debounces.filter (fun d => decide (d.timerId ≠ id)) := by
  unfold cancelTask getTimers registerDisposable updateTimers primCancel
  cases alistGet o s.registeredTimers <;> rfl

theorem cancelTask_registeredDebounces (o : OwnerId) (id : TimerId) (s : St) :
    (cancelTask o id s).registeredDebounces = s.registeredDebounces := by
  unfold cancelTask getTimers registerDisposable updateTimers primCancel
  cases alistGet o s.registeredTimers <;> rfl

theorem cancelTask_props (o : OwnerId) (id : TimerId) (s : St) :
    (cancelTask o id s).props = s.props := by
  unfold cancelTask getTimers registerDisposable updateTimers primCancel
  cases alistGet o s.registeredTimers <;> rfl

theorem cancelTask_trace (o : OwnerId) (id : TimerId) (s : St) :
    (cancelTask o id s).trace = s.trace := by
  unfold cancelTask getTimers registerDisposable updateTimers primCancel
  cases alistGet o s.registeredTimers <;> rfl

theorem foldl_cancelTask_registeredDebounces (o : OwnerId) (ids : List TimerId) (s : St) :
    (ids.foldl (fun acc id => cancelTask o id acc) s).registeredDebounces = s.registeredDebounces := by
  induction ids generalizing s with
  | nil => rfl
  | cons a tl ih => rw [List.foldl_cons, ih, cancelTask_registeredDebounces]

theorem foldl_cancelTask_sched_timers (o : OwnerId) (ids : List TimerId) (s : St) :
    (ids.foldl (fun acc id => cancelTask o id acc) s).sched.timers
      = s.sched.timers.filter (fun p => decide (p.1 ∉ ids)) := by
  induction ids generalizing s with
  | nil => simp
  | cons a tl ih =>
    rw [List.foldl_cons, ih, cancelTask_sched_timers, List.filter_filter]
    refine List.filter_congr ?_
    intro x _
    simp [List.mem_cons, not_or]
    exact Bool.and_comm _ _

theorem foldl_cancelTask_sched_debounces (o : OwnerId) (ids : List TimerId) (s : St) :
    (ids.foldl (fun acc id => cancelTask o id acc) s).sched.debounces
      = s.sched.debounces.filter (fun d => decide (d.timerId ∉ ids)) := by
  induction ids generalizing s with
  | nil => simp
  | cons a tl ih =>
    rw [List.foldl_cons, ih, cancelTask_sched_debounces, List.filter_filter]
    refine List.filter_congr ?_
    intro x _
    simp [List.mem_cons, not_or]
    exact Bool.and_comm _ _

theorem primCancel_registeredTimers (id : TimerId) (s : St) :
    (primCancel id s).registeredTimers = s.registeredTimers := rfl

theorem primCancel_registeredDebounces (id : TimerId) (s : St) :
    (primCancel id s).registeredDebounces = s.registeredDebounces := rfl

theorem foldl_primCancel_registeredTimers (ents : List (String × PendingDebounce)) (s : St) :
    (ents.foldl (fun acc p => primCancel p.2.cancelId acc) s).registeredTimers = s.registeredTimers := by
  induction ents generalizing s with
  | nil => rfl
  | cons a tl ih => rw [List.foldl_cons, ih, primCancel_registeredTimers]

theorem foldl_primCancel_registeredDebounces (ents : List (String × PendingDebounce)) (s : St) :
    (ents.foldl (fun acc p => primCancel p.2.cancelId acc) s).registeredDebounces = s.registeredDebounces := by
  induction ents generalizing s with
  | nil => rfl
  | cons a tl ih => rw [List.foldl_cons, ih, primCancel_registeredDebounces]

theorem foldl_primCancel_sched_timers (ents : List (String × PendingDebounce)) (s : St) :
    (ents.foldl (fun acc p => primCancel p.2.cancelId acc) s).sched.timers
      = s.sched.timers.filter (fun p => decide (p.1 ∉ ents.map (fun e => e.2.cancelId))) := by
  induction ents generalizing s with
  | nil => simp
  | cons a tl ih =>
    rw [List.foldl_cons, ih]
    show (List.filter _ (List.filter _ _)) = _
    rw [List.filter_filter]
    refine List.filter_congr ?_
    intro x _
    simp [List.mem_cons, not_or]
    exact Bool.and_comm _ _

theorem foldl_primCancel_sched_debounces (ents : List (String × PendingDebounce)) (s : St) :
    (ents.foldl (fun acc p => primCancel p.2.cancelId acc) s).sched.debounces
      = s.sched.debounces.filter (fun d => decide (d.timerId ∉ ents.map (fun e => e.2.cancelId))) := by
  induction ents generalizing s with
  | nil => simp
  | cons a tl ih =>
    rw [List.foldl_cons, ih]
    show (List.filter _ (List.filter _ _)) = _
    rw [List.filter_filter]
    refine List.filter_congr ?_
    intro x _
    simp [List.mem_cons, not_or]
    exact Bool.and_comm _ _

theorem timersOf_updateTimers (o : OwnerId) (f : List TimerId → List TimerId) (s : St) :
    timersOf (updateTimers o f s) o = ((alistGet o s.registeredTimers).map f).getD [] := by
  show ((alistGet o (alistUpdate o f s.registeredTimers)).getD []) = _
  rw [alistGet_update_self]

theorem applyTimersDisposable_timersOf (o : OwnerId) (s : St) :
    timersOf (applyTimersDisposable o s) o = [] := by
  unfold applyTimersDisposable
  rw [timersOf_updateTimers]
  cases alistGet o ((timersOf s o).foldl (fun acc id => cancelTask o id acc) s).registeredTimers <;> rfl

theorem applyTimersDisposable_registeredDebounces (o : OwnerId) (s : St) :
    (applyTimersDisposable o s).registeredDebounces = s.registeredDebounces := by
  unfold applyTimersDisposable
  show ((timersOf s o).foldl (fun acc id => cancelTask o id acc) s).registeredDebounces = _
  rw [foldl_cancelTask_registeredDebounces]

theorem applyDebouncesDisposable_registeredTimers (o : OwnerId) (s : St) :
    (applyDebouncesDisposable o s).registeredTimers = s.registeredTimers := by
  unfold applyDebouncesDisposable
  rw [foldl_primCancel_registeredTimers]

theorem applyDebouncesDisposable_registeredDebounces (o : OwnerId) (s : St) :
    (applyDebouncesDisposable o s).registeredDebounces = s.registeredDebounces := by
  unfold applyDebouncesDisposable
  rw [foldl_primCancel_registeredDebounces]

theorem applyTimersDisposable_sched_timers (o : OwnerId) (s : St) :
    (applyTimersDisposable o s).sched.timers
      = s.sched.timers.filter (fun p => decide (p.1 ∉ timersOf s o)) := by
  unfold applyTimersDisposable
  show ((timersOf s o).foldl (fun acc id => cancelTask o id acc) s).sched.timers = _
  rw [foldl_cancelTask_sched_timers]

theorem applyTimersDisposable_sched_debounces (o : OwnerId) (s : St) :
    (applyTimersDisposable o s).sched.debounces
      = s.sched.debounces.filter (fun d => decide (d.timerId ∉ timersOf s o)) := by
  unfold applyTimersDisposable
  show ((timersOf s o).foldl (fun acc id => cancelTask o id acc) s).sched.debounces = _
  rw [foldl_cancelTask_sched_debounces]

theorem applyDebouncesDisposable_sched_timers (o : OwnerId) (s : St) :
    (applyDebouncesDisposable o s).sched.timers
      = s.sched.timers.filter (fun p => decide (p.1 ∉ (debouncesOf s o).map (fun e => e.2.cancelId))) := by
  unfold applyDebouncesDisposable
  rw [foldl_primCancel_sched_timers]

theorem applyDebouncesDisposable_sched_debounces (o : OwnerId) (s : St) :
    (applyDebouncesDisposable o s).sched.debounces
      = s.sched.debounces.filter (fun d => decide (d.timerId ∉ (debouncesOf s o).map (fun e => e.2.cancelId))) := by
  unfold applyDebouncesDisposable
  rw [foldl_primCancel_sched_debounces]

theorem debouncesOf_applyTimersDisposable (o o2 : OwnerId) (s : St) :
    debouncesOf (applyTimersDisposable o s) o2 = debouncesOf s o2 := by
  unfold debouncesOf
  rw [applyTimersDisposable_registeredDebounces]

theorem timersOf_applyDebouncesDisposable (o o2 : OwnerId) (s : St) :
    timersOf (applyDebouncesDisposable o s) o2 = timersOf s o2 := by
  unfold timersOf
  rw [applyDebouncesDisposable_registeredTimers]

theorem setDelete_idem (id : TimerId) (v : List TimerId) :
    setDelete id (setDelete id v) = setDelete id v := by
  unfold setDelete
  rw [List.filter_filter]
  exact List.filter_congr (by intro x _; exact Bool.and_self _)

theorem alistUpdate_idem {α : Type} (o : OwnerId) (f : α → α) (hf : ∀ v, f (f v) = f v)
    (l : List (OwnerId × α)) :
    alistUpdate o f (alistUpdate o f l) = alistUpdate o f l := by
  induction l with
  | nil => rfl
  | cons hd tl ih =>
    obtain ⟨k, v⟩ := hd
    by_cases hk : k = o
    · subst hk
      simp [alistUpdate, hf]
    · simp [alistUpdate, hk, ih]

theorem filter_idem {α : Type} (p : α → Bool) (l : List α) :
    List.filter p (List.filter p l) = List.filter p l := by
  rw [List.filter_filter]
  exact List.filter_congr (by intro x _; exact Bool.and_self _)

theorem cancelTask_idem (o : OwnerId) (id : TimerId) (s : St) :
    cancelTask o id (cancelTask o id s) = cancelTask o id s := by
  unfold cancelTask getTimers registerDisposable updateTimers primCancel
  cases halist : alistGet o s.registeredTimers with
  | some ts =>
    simp only [halist, alistGet_update_self, Option.map_some']
    simp [alistUpdate_idem o (setDelete id) (setDelete_idem id), filter_idem]
  | none =>
    simp only [halist, alistGet_update_self, alistGet_append_none o [] s.registeredTimers halist,
      Option.map_some']
    simp [alistUpdate_idem o (setDelete id) (setDelete_idem id), filter_idem]

theorem alistUpdate_of_get_fix {α : Type} {o : OwnerId} {f : α → α} {l : List (OwnerId × α)} {v : α}
    (hget : alistGet o l = some v) (hfix : f v = v) : alistUpdate o f l = l := by
  induction l with
  | nil => simp [alistGet] at hget
  | cons hd tl ih =>
    obtain ⟨k, w⟩ := hd
    by_cases hk : k = o
    · subst hk
      simp [alistGet, List.find?_cons] at hget
      simp [alistUpdate, hget ▸ hfix]
    · have hget' : alistGet o tl = some v := by
        unfold alistGet at hget ⊢
        rw [List.find?_cons] at hget
        have hd : decide ((k, w).1 = o) = false := by simp [hk]
        rw [hd] at hget
        exact hget
      simp [alistUpdate, hk]
      exact ih hget'

theorem cancelTask_noop (o : OwnerId) (id : TimerId) (s : St) (ts : List TimerId)
    (halist : alistGet o s.registeredTimers = some ts)
    (h1 : id ∉ ts)
    (h2 : ∀ p ∈ s.sched.timers, p.1 ≠ id)
    (h3 : ∀ d ∈ s.sched.debounces, d.timerId ≠ id) :
    cancelTask o id s = s := by
  unfold cancelTask getTimers registerDisposable updateTimers primCancel
  simp only [halist]
  have e1 : alistUpdate o (setDelete id) s.registeredTimers = s.registeredTimers := by
    refine alistUpdate_of_get_fix halist ?_
    unfold setDelete
    refine List.filter_eq_self.mpr ?_
    intro y hy
    simp only [decide_eq_true_eq]
    exact fun heq => h1 (heq ▸ hy)
  have e2 : s.sched.timers.filter (fun p => decide (p.1 ≠ id)) = s.sched.timers := by
    refine List.filter_eq_self.mpr ?_
    intro p hp
    simp only [decide_eq_true_eq]
    exact h2 p hp
  have e3 : s.sched.debounces.filter (fun d => decide (d.timerId ≠ id)) = s.sched.debounces := by
    refine List.filter_eq_self.mpr ?_
    intro d hd
    simp only [decide_eq_true_eq]
    exact h3 d hd
  rw [e1, e2, e3]

theorem cancelDebounce_noop (o : OwnerId) (n : String) (s : St)
    (h : mapGetKey n (debouncesOf s o) = none) :
    cancelDebounce o n s = s := by
  unfold cancelDebounce
  cases halist : alistGet o s.registeredDebounces with
  | none => rfl
  | some m =>
    have hm : debouncesOf s o = m := by unfold debouncesOf; rw [halist]; rfl
    rw [hm] at h
    simp only [h]

theorem getTimers_sched (o : OwnerId) (s : St) : ((getTimers o s).2).sched = s.sched := by
  unfold getTimers registerDisposable
  cases alistGet o s.registeredTimers <;> rfl

theorem getTimers_props (o : OwnerId) (s : St) : ((getTimers o s).2).props = s.props := by
  unfold getTimers registerDisposable
  cases alistGet o s.registeredTimers <;> rfl

theorem getTimers_trace (o : OwnerId) (s : St) : ((getTimers o s).2).trace = s.trace := by
  unfold getTimers registerDisposable
  cases alistGet o s.registeredTimers <;> rfl

theorem find?_fresh (l : List (TimerId × TimerKind)) (nid : Nat) (k : TimerKind)
    (h : ∀ p ∈ l, p.1 < nid) :
    (l ++ [(nid, k)]).find? (fun p => decide (p.1 = nid)) = some (nid, k) := by
  rw [List.find?_append]
  have h1 : l.find? (fun p => decide (p.1 = nid)) = none := by
    rw [List.find?_eq_none]
    intro x hx
    simp only [decide_eq_true_eq]
    exact Nat.ne_of_lt (h x hx)
  rw [h1]
  simp [List.find?_cons]

theorem not_mem_timersOf_update_delete (o : OwnerId) (id : TimerId) (s : St) :
    id ∉ timersOf (updateTimers o (setDelete id) s) o := by
  rw [timersOf_updateTimers]
  cases alistGet o s.registeredTimers with
  | none => simp
  | some v => simp [setDelete, List.mem_filter]

theorem runTask_pends (o : OwnerId) (t : TaskOrName) (timeout : Int) (s : St)
    (hwf : SchedWF s) (hd : o ∉ s.destroyed) (ht : getTask s o t = .ok t) :
    (runTask o t timeout s).1 = .ok s.sched.nextId ∧
    (runTask o t timeout s).2.sched.timers.find? (fun p => decide (p.1 = s.sched.nextId))
      = some (s.sched.nextId, .runTaskFire o t) := by
  constructor
  · simp only [runTask, ht]
    rw [if_neg hd]
    show Except.ok ((getTimers o s).2.sched.nextId) = _
    rw [getTimers_sched]
  · simp only [runTask, ht]
    rw [if_neg hd]
    show ((getTimers o s).2.sched.timers ++ [((getTimers o s).2.sched.nextId, _)]).find? _ = _
    rw [getTimers_sched]
    exact find?_fresh s.sched.timers s.sched.nextId _ hwf.1

theorem scheduleTask_pends (o : OwnerId) (qs : String) (t : TaskOrName) (args : List JsVal) (s : St)
    (hwf : SchedWF s) (hq : qs ≠ "afterRender") (hd : o ∉ s.destroyed) (ht : getTask s o t = .ok t) :
    (scheduleTask o (.str qs) t args s).1 = .ok s.sched.nextId ∧
    (scheduleTask o (.str qs) t args s).2.sched.timers.find? (fun p => decide (p.1 = s.sched.nextId))
      = some (s.sched.nextId, .scheduleFire o t args) := by
  constructor
  · simp only [scheduleTask, ht]
    rw [if_neg hq, if_neg hd]
    show Except.ok ((getTimers o s).2.sched.nextId) = _
    rw [getTimers_sched]
  · simp only [scheduleTask, ht]
    rw [if_neg hq, if_neg hd]
    show ((getTimers o s).2.sched.timers ++ [((getTimers o s).2.sched.nextId, _)]).find? _ = _
    rw [getTimers_sched]
    exact find?_fresh s.sched.timers s.sched.nextId _ hwf.1

theorem fire_runTaskFire (o : OwnerId) (t : TaskOrName) (id : TimerId) (s1 : St)
    (hfind : s1.sched.timers.find? (fun p => decide (p.1 = id)) = some (id, .runTaskFire o t)) :
    ∃ s2, fireTimer id s1 = some s2 ∧ id ∉ timersOf s2 o ∧
      s2.trace = s1.trace ++ [.removedTimer o id, invokeEvent s1.props o t []] := by
  unfold fireTimer
  rw [hfind]
  exact ⟨_, rfl, not_mem_timersOf_update_delete o id _, rfl⟩

theorem fire_scheduleFire (o : OwnerId) (t : TaskOrName) (args : List JsVal) (id : TimerId) (s1 : St)
    (hfind : s1.sched.timers.find? (fun p => decide (p.1 = id)) = some (id, .scheduleFire o t args)) :
    ∃ s2, fireTimer id s1 = some s2 ∧ id ∉ timersOf s2 o ∧
      s2.trace = s1.trace ++ [.removedTimer o id, invokeEvent s1.props o t args] := by
  unfold fireTimer
  rw [hfind]
  exact ⟨_, rfl, not_mem_timersOf_update_delete o id _, rfl⟩

theorem lookupProp_setProp (o : OwnerId) (n : String) (g : FnId) (s : St) :
    lookupProp (setProp o n g s).props o n = some g := by
  simp [setProp, lookupProp, List.find?_cons]

theorem getTimers_get (o : OwnerId) (s : St) :
    alistGet o ((getTimers o s).2).registeredTimers = some (timersOf s o) := by
  unfold getTimers registerDisposable timersOf
  cases h : alistGet o s.registeredTimers with
  | some ts => simp [h]
  | none => simp [h, alistGet_append_none o [] s.registeredTimers h]

theorem mem_setAdd_self (x : TimerId) (xs : List TimerId) : x ∈ setAdd x xs := by
  unfold setAdd
  by_cases h : x ∈ xs
  · rw [if_pos h]; exact h
  · rw [if_neg h]; simp

/-- C1: a task registered by name stays a name inside the scheduled closure
(`runTaskFire`/`scheduleFire` carry the unresolved name), and when the
closure fires after the owner's named property has been reassigned to a
new callable `g`, it is `g` — the property value at fire time — that is
invoked. -/
theorem claimC1 (o : OwnerId) (n : String) (f g : FnId) (timeout : Int) (qs : String)
    (args : List JsVal) (s s1 : St) (id : TimerId) :
    (SchedWF s → o ∉ s.destroyed → lookupProp s.props o n = some f →
      (runTask o (.name n) timeout s).1 = .ok s.sched.nextId ∧
      (runTask o (.name n) timeout s).2.sched.timers.find? (fun p => decide (p.1 = s.sched.nextId))
        = some (s.sched.nextId, .runTaskFire o (.name n))) ∧
    (SchedWF s → qs ≠ "afterRender" → o ∉ s.destroyed → lookupProp s.props o n = some f →
      (scheduleTask o (.str qs) (.name n) args s).1 = .ok s.sched.nextId ∧
      (scheduleTask o (.str qs) (.name n) args s).2.sched.timers.find?
          (fun p => decide (p.1 = s.sched.nextId))
        = some (s.sched.nextId, .scheduleFire o (.name n) args)) ∧
    (s1.sched.timers.find? (fun p => decide (p.1 = id)) = some (id, .runTaskFire o (.name n)) →
      ∃ s3, fireTimer id (setProp o n g s1) = some s3 ∧
        s3.trace = (setProp o n g s1).trace ++ [.removedTimer o id, .invoked o g []]) ∧
    (s1.sched.timers.find? (fun p => decide (p.1 = id)) = some (id, .scheduleFire o (.name n) args) →
      ∃ s3, fireTimer id (setProp o n g s1) = some s3 ∧
        s3.trace = (setProp o n g s1).trace ++ [.removedTimer o id, .invoked o g args]) := by
  refine ⟨?_, ?_, ?_, ?_⟩
  · intro hwf hd hp
    exact runTask_pends o (.name n) timeout s hwf hd (by simp [getTask, hp])
  · intro hwf hq hd hp
    exact scheduleTask_pends o qs (.name n) args s hwf hq hd (by simp [getTask, hp])
  · intro hfind
    have hfind2 : (setProp o n g s1).sched.timers.find? (fun p => decide (p.1 = id))
        = some (id, .runTaskFire o (.name n)) := hfind
    obtain ⟨s3, h1, _, h3⟩ := fire_runTaskFire o (.name n) id (setProp o n g s1) hfind2
    refine ⟨s3, h1, ?_⟩
    rw [h3]
    have : invokeEvent (setProp o n g s1).props o (.name n) [] = .invoked o g [] := by
      simp [invokeEvent, resolveTask, lookupProp_setProp]
    rw [this]
  · intro hfind
    have hfind2 : (setProp o n g s1).sched.timers.find? (fun p => decide (p.1 = id))
        = some (id, .scheduleFire o (.name n) args) := hfind
    obtain ⟨s3, h1, _, h3⟩ := fire_scheduleFire o (.name n) args id (setProp o n g s1) hfind2
    refine ⟨s3, h1, ?_⟩
    rw [h3]
    have : invokeEvent (setProp o n g s1).props o (.name n) args = .invoked o g args := by
      simp [invokeEvent, resolveTask, lookupProp_setProp]
    rw [this]

theorem claimC1_witness :
    ((runTask 0 (.name "f") 0 st0).1 = .ok 0 ∧
      (runTask 0 (.name "f") 0 st0).2.sched.timers.find? (fun p => decide (p.1 = 0))
        = some (0, .runTaskFire 0 (.name "f"))) ∧
    ((scheduleTask 0 (JsVal.str "actions") (.name "f") [JsVal.str "x"] st0).1 = .ok 0 ∧
      (scheduleTask 0 (JsVal.str "actions") (.name "f") [JsVal.str "x"] st0).2.sched.timers.find?
          (fun p => decide (p.1 = 0))
        = some (0, .scheduleFire 0 (.name "f") [JsVal.str "x"])) ∧
    (∃ s3, fireTimer 0 (setProp 0 "f" 2 stNameRunPend) = some s3 ∧
      s3.trace = (setProp 0 "f" 2 stNameRunPend).trace ++ [.removedTimer 0 0, .invoked 0 2 []]) ∧
    (∃ s3, fireTimer 0 (setProp 0 "f" 2 stNameSchedPend) = some s3 ∧
      s3.trace = (setProp 0 "f" 2 stNameSchedPend).trace
        ++ [.removedTimer 0 0, .invoked 0 2 [JsVal.str "x"]]) := by
  refine ⟨?_, ?_, ?_, ?_⟩
  · exact (claimC1 0 "f" 1 2 0 "actions" [JsVal.str "x"] st0 stNameRunPend 0).1
      (by decide) (by decide) rfl
  · exact (claimC1 0 "f" 1 2 0 "actions" [JsVal.str "x"] st0 stNameSchedPend 0).2.1
      (by decide) (by decide) (by decide) rfl
  · exact (claimC1 0 "f" 1 2 0 "actions" [JsVal.str "x"] st0 stNameRunPend 0).2.2.1 rfl
  · exact (claimC1 0 "f" 1 2 0 "actions" [JsVal.str "x"] st0 stNameSchedPend 0).2.2.2 rfl

/-- C2 counterexample: after the destruction hook runs, every pending
debounce has been canceled at the primitive scheduler, but the debounce
map still holds its entry — the hook does not clear the debounce map, so
the claim "both collections are empty afterwards" is false. -/
theorem claimC2_counterexample :
    debouncesOf (runDisposables 0 stDeb1) 0
      = [("f", { debouncedTask := { owner := 0, dname := "f", mkId := 0 }, cancelId := 1 })] ∧
    debouncesOf (runDisposables 0 stDeb1) 0 ≠ [] := by
  constructor
  · rfl
  · decide

/-- C2 (amended): when the owner's destruction hook (its registered timers
disposable followed by its debounces disposable) runs, every outstanding
timer identifier and every pending debounce is canceled, the timer set is
cleared, and none of those tasks can subsequently fire; the debounce map,
however, retains its entries (the source never clears it). -/
theorem claimC2_amended (o : OwnerId) (s : St)
    (h : s.disposables.filter (fun d => decide (d.ownerOf = o))
           = [Disposable.timers o, Disposable.debounces o]) :
    timersOf (runDisposables o s) o = [] ∧
    debouncesOf (runDisposables o s) o = debouncesOf s o ∧
    (∀ id ∈ timersOf s o, fireTimer id (runDisposables o s) = none) ∧
    (∀ e ∈ debouncesOf s o, fireDebounce e.2.cancelId (runDisposables o s) = none) := by
  have hrun : runDisposables o s = applyDebouncesDisposable o (applyTimersDisposable o s) := by
    unfold runDisposables
    rw [h]
    rfl
  rw [hrun]
  refine ⟨?_, ?_, ?_, ?_⟩
  · rw [timersOf_applyDebouncesDisposable, applyTimersDisposable_timersOf]
  · unfold debouncesOf
    rw [applyDebouncesDisposable_registeredDebounces, applyTimersDisposable_registeredDebounces]
  · intro id hid
    have hnone : (applyDebouncesDisposable o (applyTimersDisposable o s)).sched.timers.find?
        (fun p => decide (p.1 = id)) = none := by
      rw [List.find?_eq_none]
      intro x hx
      rw [applyDebouncesDisposable_sched_timers] at hx
      have hx1 := (List.mem_filter.mp hx).1
      rw [applyTimersDisposable_sched_timers] at hx1
      have hx2 := (List.mem_filter.mp hx1).2
      simp only [decide_eq_true_eq] at hx2
      simp only [decide_eq_true_eq]
      intro hcontra
      exact hx2 (hcontra ▸ hid)
    simp [fireTimer, hnone]
  · intro e he
    have hnone : (applyDebouncesDisposable o (applyTimersDisposable o s)).sched.debounces.find?
        (fun d => decide (d.timerId = e.2.cancelId)) = none := by
      rw [List.find?_eq_none]
      intro x hx
      rw [applyDebouncesDisposable_sched_debounces] at hx
      have hx2 := (List.mem_filter.mp hx).2
      simp only [decide_eq_true_eq] at hx2
      simp only [decide_eq_true_eq]
      intro hcontra
      refine hx2 ?_
      rw [debouncesOf_applyTimersDisposable]
      exact hcontra ▸ List.mem_map_of_mem (fun e => e.2.cancelId) he
    simp [fireDebounce, hnone]

theorem claimC2_amended_witness :
    timersOf (runDisposables 0 stTimerAndDeb) 0 = [] ∧
    debouncesOf (runDisposables 0 stTimerAndDeb) 0 = debouncesOf stTimerAndDeb 0 ∧
    (∀ id ∈ timersOf stTimerAndDeb 0, fireTimer id (runDisposables 0 stTimerAndDeb) = none) ∧
    (∀ e ∈ debouncesOf stTimerAndDeb 0,
      fireDebounce e.2.cancelId (runDisposables 0 stTimerAndDeb) = none) :=
  claimC2_amended 0 stTimerAndDeb (by decide)

/-- C3 counterexample: a negative integer trailing wait argument is a
`Number.isInteger` integer, so both `throttleTask` and `debounceTask`
accept it instead of failing with `InvalidDelayError`. -/
theorem claimC3_counterexample :
    (throttleTask 0 "f" [JsVal.int (-5)] st0).1 = .ok 0 ∧
    (debounceTask 0 "f" [JsVal.int (-5)] st0).1 = .ok () := ⟨rfl, rfl⟩

/-- C3 (amended): `throttleTask` and `debounceTask` fail synchronously with
`InvalidDelayError` exactly when the trailing wait argument is not an
integer; every integer wait — negative integers included — passes the
validation. -/
theorem claimC3_amended (o : OwnerId) (nm : String) (args : List JsVal) (w : Int) (s : St)
    (h1 : (lookupProp s.props o nm).isNone = false)
    (h2 : o ∉ s.destroyed) :
    exOk (throttleTask o nm (args ++ [JsVal.int w]) s).1 = true ∧
    exOk (debounceTask o nm (args ++ [JsVal.int w]) s).1 = true ∧
    (∀ v, jsIsInteger v = false →
      (throttleTask o nm (args ++ [v]) s).1 = .error .invalidDelay ∧
      (debounceTask o nm (args ++ [v]) s).1 = .error .invalidDelay) := by
  refine ⟨?_, ?_, ?_⟩
  · simp [throttleTask, h1, h2, List.getLast?_concat, jsIsInteger, exOk]
  · simp [debounceTask, h1, h2, List.getLast?_concat, jsIsInteger, exOk]
  · intro v hv
    constructor
    · simp [throttleTask, h1, h2, List.getLast?_concat, hv]
    · simp [debounceTask, h1, h2, List.getLast?_concat, hv]

theorem claimC3_amended_witness :
    exOk (throttleTask 0 "f" ([] ++ [JsVal.int (-3)]) st0).1 = true ∧
    exOk (debounceTask 0 "f" ([] ++ [JsVal.int (-3)]) st0).1 = true ∧
    (∀ v, jsIsInteger v = false →
      (throttleTask 0 "f" ([] ++ [v]) st0).1 = .error .invalidDelay ∧
      (debounceTask 0 "f" ([] ++ [v]) st0).1 = .error .invalidDelay) :=
  claimC3_amended 0 "f" [] (-3) st0 (by decide) (by decide)

/-- C4 counterexample: the empty string passes `scheduleTask`'s queue
validation (`typeof queueName === 'string'` and `queueName !== 'afterRender'`
are both satisfied), so an empty-string queue name is not rejected. -/
theorem claimC4_counterexample :
    (scheduleTask 0 (JsVal.str "") (.task 1) [] st0).1 = .ok 0 := rfl

/-- C4 (amended): `scheduleTask` fails with `ReservedQueueError` when the
queue is the reserved `afterRender` queue, and with `InvalidQueueError`
when the queue is not a string at all; a queue that is any string other
than `afterRender` — the empty string included — passes validation. -/
theorem claimC4_amended (o : OwnerId) (t t2 : TaskOrName) (args : List JsVal) (q : JsVal) (s : St) :
    ((scheduleTask o (JsVal.str "afterRender") t args s).1 = .error .reservedQueue ∧
      (scheduleTask o (JsVal.str "afterRender") t args s).2 = s) ∧
    ((∀ qs, q ≠ JsVal.str qs) →
      (scheduleTask o q t args s).1 = .error .invalidQueue ∧ (scheduleTask o q t args s).2 = s) ∧
    (o ∉ s.destroyed → getTask s o t = .ok t2 →
      exOk (scheduleTask o (JsVal.str "") t args s).1 = true) := by
  refine ⟨⟨rfl, rfl⟩, ?_, ?_⟩
  · intro hq
    cases q with
    | str qs => exact absurd rfl (hq qs)
    | int n => exact ⟨rfl, rfl⟩
    | nonIntNum => exact ⟨rfl, rfl⟩
    | fnv f => exact ⟨rfl, rfl⟩
    | undef => exact ⟨rfl, rfl⟩
  · intro h2 h3
    simp [scheduleTask, h2, h3, exOk]

theorem claimC4_amended_witness :
    ((scheduleTask 0 (JsVal.str "afterRender") (.task 1) [] st0).1 = .error .reservedQueue ∧
      (scheduleTask 0 (JsVal.str "afterRender") (.task 1) [] st0).2 = st0) ∧
    ((∀ qs, JsVal.undef ≠ JsVal.str qs) →
      (scheduleTask 0 JsVal.undef (.task 1) [] st0).1 = .error .invalidQueue ∧
      (scheduleTask 0 JsVal.undef (.task 1) [] st0).2 = st0) ∧
    (0 ∉ st0.destroyed → getTask st0 0 (.task 1) = .ok (.task 1) →
      exOk (scheduleTask 0 (JsVal.str "") (.task 1) [] st0).1 = true) :=
  claimC4_amended 0 (.task 1) (.task 1) [] JsVal.undef st0

/-- C5: every scheduling entry point called on a destroyed owner fails with
a synchronous error (for `runTask` the destroyed-owner assertion is the
very first check, so the error is `DestroyedOwnerError`; the other entry
points may report an earlier validation failure first, but never succeed)
and returns the state unchanged: no timer is registered. -/
theorem claimC5 (o : OwnerId) (t : TaskOrName) (timeout : Int) (q : JsVal) (nm : String)
    (args targs dargs : List JsVal) (s : St) (h : o ∈ s.destroyed) :
    ((runTask o t timeout s).1 = .error .destroyedOwner ∧ (runTask o t timeout s).2 = s) ∧
    (exOk (scheduleTask o q t args s).1 = false ∧ (scheduleTask o q t args s).2 = s) ∧
    (exOk (throttleTask o nm targs s).1 = false ∧ (throttleTask o nm targs s).2 = s) ∧
    (exOk (debounceTask o nm dargs s).1 = false ∧ (debounceTask o nm dargs s).2 = s) := by
  refine ⟨?_, ?_, ?_, ?_⟩
  · simp [runTask, h]
  · cases q with
    | str qs =>
      by_cases hq : qs = "afterRender"
      · subst hq; exact ⟨rfl, rfl⟩
      · simp [scheduleTask, hq, h, exOk]
    | int n => exact ⟨rfl, rfl⟩
    | nonIntNum => exact ⟨rfl, rfl⟩
    | fnv f => exact ⟨rfl, rfl⟩
    | undef => exact ⟨rfl, rfl⟩
  · cases hlp : (lookupProp s.props o nm).isNone with
    | true => simp [throttleTask, hlp, exOk]
    | false => simp [throttleTask, hlp, h, exOk]
  · cases hlp : (lookupProp s.props o nm).isNone with
    | true => simp [debounceTask, hlp, exOk]
    | false => simp [debounceTask, hlp, h, exOk]

theorem claimC5_witness :
    ((runTask 0 (.task 1) 0 stDead).1 = .error .destroyedOwner ∧
      (runTask 0 (.task 1) 0 stDead).2 = stDead) ∧
    (exOk (scheduleTask 0 (JsVal.str "actions") (.task 1) [] stDead).1 = false ∧
      (scheduleTask 0 (JsVal.str "actions") (.task 1) [] stDead).2 = stDead) ∧
    (exOk (throttleTask 0 "f" [JsVal.int 5] stDead).1 = false ∧
      (throttleTask 0 "f" [JsVal.int 5] stDead).2 = stDead) ∧
    (exOk (debounceTask 0 "f" [JsVal.int 5] stDead).1 = false ∧
      (debounceTask 0 "f" [JsVal.int 5] stDead).2 = stDead) :=
  claimC5 0 (.task 1) 0 (JsVal.str "actions") "f" [] [JsVal.int 5] [JsVal.int 5] stDead (by decide)

/-- C6: a timer scheduled through `runTask` is pending with a
`runTaskFire` closure under the returned identifier, one scheduled through
`scheduleTask` with a `scheduleFire` wrapper; when such a closure fires it
first deletes its own identifier from the owner's tracked set and then
invokes the task bound to the owner (the trace records the removal strictly
before the invocation), and afterwards the identifier is absent from the
owner's tracked set. -/
theorem claimC6 (o : OwnerId) (t : TaskOrName) (timeout : Int) (qs : String)
    (args : List JsVal) (s s1 : St) (id : TimerId) :
    (SchedWF s → o ∉ s.destroyed → getTask s o t = .ok t →
      (runTask o t timeout s).1 = .ok s.sched.nextId ∧
      (runTask o t timeout s).2.sched.timers.find? (fun p => decide (p.1 = s.sched.nextId))
        = some (s.sched.nextId, .runTaskFire o t)) ∧
    (SchedWF s → qs ≠ "afterRender" → o ∉ s.destroyed → getTask s o t = .ok t →
      (scheduleTask o (.str qs) t args s).1 = .ok s.sched.nextId ∧
      (scheduleTask o (.str qs) t args s).2.sched.timers.find? (fun p => decide (p.1 = s.sched.nextId))
        = some (s.sched.nextId, .scheduleFire o t args)) ∧
    (s1.sched.timers.find? (fun p => decide (p.1 = id)) = some (id, .runTaskFire o t) →
      ∃ s2, fireTimer id s1 = some s2 ∧ id ∉ timersOf s2 o ∧
        s2.trace = s1.trace ++ [.removedTimer o id, invokeEvent s1.props o t []]) ∧
    (s1.sched.timers.find? (fun p => decide (p.1 = id)) = some (id, .scheduleFire o t args) →
      ∃ s2, fireTimer id s1 = some s2 ∧ id ∉ timersOf s2 o ∧
        s2.trace = s1.trace ++ [.removedTimer o id, invokeEvent s1.props o t args]) := by
  refine ⟨?_, ?_, ?_, ?_⟩
  · intro hwf hd ht
    exact runTask_pends o t timeout s hwf hd ht
  · intro hwf hq hd ht
    exact scheduleTask_pends o qs t args s hwf hq hd ht
  · intro hfind
    exact fire_runTaskFire o t id s1 hfind
  · intro hfind
    exact fire_scheduleFire o t args id s1 hfind

theorem claimC6_witness :
    ((runTask 0 (.task 1) 0 st0).1 = .ok 0 ∧
      (runTask 0 (.task 1) 0 st0).2.sched.timers.find? (fun p => decide (p.1 = 0))
        = some (0, .runTaskFire 0 (.task 1))) ∧
    ((scheduleTask 0 (JsVal.str "actions") (.task 1) [JsVal.str "x"] st0).1 = .ok 0 ∧
      (scheduleTask 0 (JsVal.str "actions") (.task 1) [JsVal.str "x"] st0).2.sched.timers.find?
          (fun p => decide (p.1 = 0))
        = some (0, .scheduleFire 0 (.task 1) [JsVal.str "x"])) ∧
    (∃ s2, fireTimer 0 stRunPend = some s2 ∧ 0 ∉ timersOf s2 0 ∧
      s2.trace = stRunPend.trace ++ [.removedTimer 0 0, invokeEvent stRunPend.props 0 (.task 1) []]) ∧
    (∃ s2, fireTimer 0 stSchedPend = some s2 ∧ 0 ∉ timersOf s2 0 ∧
      s2.trace = stSchedPend.trace
        ++ [.removedTimer 0 0, invokeEvent stSchedPend.props 0 (.task 1) [JsVal.str "x"]]) := by
  refine ⟨?_, ?_, ?_, ?_⟩
  · exact (claimC6 0 (.task 1) 0 "actions" [JsVal.str "x"] st0 stRunPend 0).1
      (by decide) (by decide) rfl
  · exact (claimC6 0 (.task 1) 0 "actions" [JsVal.str "x"] st0 stSchedPend 0).2.1
      (by decide) (by decide) (by decide) rfl
  · exact (claimC6 0 (.task 1) 0 "actions" [JsVal.str "x"] st0 stRunPend 0).2.2.1 rfl
  · exact (claimC6 0 (.task 1) 0 "actions" [JsVal.str "x"] st0 stSchedPend 0).2.2.2 rfl

/-- C7: a back-to-back burst of three `debounceTask` calls for the same
owner and name keeps exactly one pending entry for the name; the wrapped
callback identity (`mkId = 0`, created by the first call) is reused by all
three calls while each call stores a fresh cancel id (1, then 2, then 3);
the primitive scheduler holds exactly one pending debounce carrying the
most recent call's arguments; and firing it removes the map entry before
invoking the owner's method exactly once, with the last call's arguments. -/
theorem claimC7 (o : OwnerId) (n : String) (f : FnId) (a1 a2 a3 : List JsVal)
    (w1 w2 w3 : Int) :
    (debounceTask o n (a1 ++ [JsVal.int w1]) (initOwner o n f)).1 = .ok () ∧
    debouncesOf (burst1 o n f a1 w1) o = [(n, ⟨⟨o, n, 0⟩, 1⟩)] ∧
    (debounceTask o n (a2 ++ [JsVal.int w2]) (burst1 o n f a1 w1)).1 = .ok () ∧
    debouncesOf (burst2 o n f a1 w1 a2 w2) o = [(n, ⟨⟨o, n, 0⟩, 2⟩)] ∧
    (debounceTask o n (a3 ++ [JsVal.int w3]) (burst2 o n f a1 w1 a2 w2)).1 = .ok () ∧
    debouncesOf (burst3 o n f a1 w1 a2 w2 a3 w3) o = [(n, ⟨⟨o, n, 0⟩, 3⟩)] ∧
    (burst3 o n f a1 w1 a2 w2 a3 w3).sched.debounces = [⟨3, o, ⟨o, n, 0⟩, a3⟩] ∧
    fireDebounce 3 (burst3 o n f a1 w1 a2 w2 a3 w3)
      = some (burstFired o n f a1 w1 a2 w2 a3 w3) ∧
    debouncesOf (burstFired o n f a1 w1 a2 w2 a3 w3) o = [] ∧
    (burstFired o n f a1 w1 a2 w2 a3 w3).sched.debounces = [] ∧
    (burstFired o n f a1 w1 a2 w2 a3 w3).trace = [.removedDebounce o n, .invoked o f a3] := by
  refine ⟨?_, ?_, ?_, ?_, ?_, ?_, ?_, ?_, ?_, ?_, ?_⟩ <;>
    simp [burst1, burst2, burst3, burstFired, initOwner, debounceTask, getDebounces,
      registerDisposable, alistGet, mapGetKey, mapSetKey, alistUpdate, updateDebounces,
      primDebounce, debouncesOf, lookupProp, List.find?_cons, List.getLast?_concat,
      List.dropLast_concat, jsIsInteger, fireDebounce, mapDeleteKey, invokeEvent, resolveTask]

/-- C8: `cancelTask(obj, id)` never raises (it is a total function here,
matching the throw-free source), it is idempotent, and on an identifier
that is unknown to the owner and not pending at the primitive scheduler
(covering already-fired and already-canceled ids) it leaves the state
exactly as it was; `cancelDebounce(obj, name)` is a no-op whenever no entry
for the name is pending — in particular when the owner has no registry
entry at all, in which case `debouncesOf` is empty. -/
theorem claimC8 (o : OwnerId) (id : TimerId) (n : String) (s : St) (ts : List TimerId) :
    (cancelTask o id (cancelTask o id s) = cancelTask o id s) ∧
    (alistGet o s.registeredTimers = some ts → id ∉ ts →
      (∀ p ∈ s.sched.timers, p.1 ≠ id) → (∀ d ∈ s.sched.debounces, d.timerId ≠ id) →
      cancelTask o id s = s) ∧
    (mapGetKey n (debouncesOf s o) = none → cancelDebounce o n s = s) :=
  ⟨cancelTask_idem o id s,
   fun halist h1 h2 h3 => cancelTask_noop o id s ts halist h1 h2 h3,
   fun h => cancelDebounce_noop o n s h⟩

theorem claimC8_witness :
    (cancelTask 0 7 (cancelTask 0 7 stRunPend) = cancelTask 0 7 stRunPend) ∧
    cancelTask 0 7 stRunPend = stRunPend ∧
    cancelDebounce 0 "g" stRunPend = stRunPend := by
  obtain ⟨ha, hb, hc⟩ := claimC8 0 7 "g" stRunPend [0]
  exact ⟨ha, hb (by decide) (by decide) (by decide) (by decide), hc (by decide)⟩

/-- C9: whenever any scheduling entry point fails validation (bad task,
bad queue, bad wait, destroyed owner), the error is returned with the
pre-call state: nothing was mutated, no timer was registered, the owner's
timer set and debounce map are exactly as before. -/
theorem claimC9 (o : OwnerId) (t : TaskOrName) (timeout : Int) (q : JsVal) (nm : String)
    (args targs dargs : List JsVal) (s : St) :
    (∀ e, (runTask o t timeout s).1 = .error e → (runTask o t timeout s).2 = s) ∧
    (∀ e, (scheduleTask o q t args s).1 = .error e → (scheduleTask o q t args s).2 = s) ∧
    (∀ e, (throttleTask o nm targs s).1 = .error e → (throttleTask o nm targs s).2 = s) ∧
    (∀ e, (debounceTask o nm dargs s).1 = .error e → (debounceTask o nm dargs s).2 = s) := by
  refine ⟨?_, ?_, ?_, ?_⟩
  · intro e herr
    by_cases hd : o ∈ s.destroyed
    · simp [runTask, hd]
    · cases hg : getTask s o t with
      | error e2 => simp [runTask, hd, hg]
      | ok tk => simp [runTask, hd, hg] at herr
  · cases q with
    | str qs =>
      by_cases hq : qs = "afterRender"
      · subst hq; intro e _; rfl
      · intro e herr
        by_cases hd : o ∈ s.destroyed
        · simp [scheduleTask, hq, hd]
        · cases hg : getTask s o t with
          | error e2 => simp [scheduleTask, hq, hd, hg]
          | ok tk => simp [scheduleTask, hq, hd, hg] at herr
    | int n => intro e _; rfl
    | nonIntNum => intro e _; rfl
    | fnv f => intro e _; rfl
    | undef => intro e _; rfl
  · intro e herr
    cases hlp : (lookupProp s.props o nm).isNone with
    | true => simp [throttleTask, hlp]
    | false =>
      by_cases hd : o ∈ s.destroyed
      · simp [throttleTask, hlp, hd]
      · by_cases hw : jsIsInteger (targs.getLast?.getD .undef) = false
        · simp [throttleTask, hlp, hd, hw]
        · simp [throttleTask, hlp, hd, hw] at herr
  · intro e herr
    cases hlp : (lookupProp s.props o nm).isNone with
    | true => simp [debounceTask, hlp]
    | false =>
      by_cases hd : o ∈ s.destroyed
      · simp [debounceTask, hlp, hd]
      · by_cases hw : jsIsInteger (dargs.getLast?.getD .undef) = false
        · simp [debounceTask, hlp, hd, hw]
        · simp [debounceTask, hlp, hd, hw] at herr

theorem claimC9_witness :
    (runTask 0 (.task 1) 0 stDead).2 = stDead ∧
    (scheduleTask 0 JsVal.undef (.task 1) [] st0).2 = st0 ∧
    (throttleTask 0 "f" [JsVal.str "bad"] st0).2 = st0 ∧
    (debounceTask 0 "f" [JsVal.str "bad"] st0).2 = st0 := by
  refine ⟨?_, ?_, ?_, ?_⟩
  · exact (claimC9 0 (.task 1) 0 JsVal.undef "f" [] [] [] stDead).1 .destroyedOwner rfl
  · exact (claimC9 0 (.task 1) 0 JsVal.undef "f" [] [] [] st0).2.1 .invalidQueue rfl
  · exact (claimC9 0 (.task 1) 0 JsVal.undef "f" [] [JsVal.str "bad"] [] st0).2.2.1 .invalidDelay rfl
  · exact (claimC9 0 (.task 1) 0 JsVal.undef "f" [] [] [JsVal.str "bad"] st0).2.2.2 .invalidDelay rfl

/-- C10: a fresh `throttleTask` call returns the new window timer's
identifier, adds it to the owner's tracked timer set, and leaves a
`throttleExpire` timer pending under it; firing a `throttleExpire` timer
(the end of the throttle window) invokes nothing and removes nothing from
any owner's tracked set — unlike the `runTask`/`scheduleTask` wrappers
there is no self-cleaning, so the identifier stays tracked until
`cancelTask` or the destruction sweep removes it. -/
theorem claimC10 (o : OwnerId) (nm : String) (args : List JsVal) (w : Int) (s : St)
    (o2 : OwnerId) (n2 : String) (id : TimerId) (s1 : St) :
    (SchedWF s → (lookupProp s.props o nm).isNone = false → o ∉ s.destroyed →
      s.sched.timers.find? (fun p => decide (p.2 = TimerKind.throttleExpire o nm)) = none →
      (throttleTask o nm (args ++ [JsVal.int w]) s).1 = .ok s.sched.nextId ∧
      s.sched.nextId ∈ timersOf (throttleTask o nm (args ++ [JsVal.int w]) s).2 o ∧
      (throttleTask o nm (args ++ [JsVal.int w]) s).2.sched.timers.find?
          (fun p => decide (p.1 = s.sched.nextId))
        = some (s.sched.nextId, .throttleExpire o nm)) ∧
    (s1.sched.timers.find? (fun p => decide (p.1 = id)) = some (id, .throttleExpire o2 n2) →
      ∃ s2, fireTimer id s1 = some s2 ∧ (∀ o3, timersOf s2 o3 = timersOf s1 o3) ∧
        s2.trace = s1.trace) := by
  constructor
  · intro hwf h1 hd hna
    have hna2 : ((getTimers o s).2).sched.timers.find?
        (fun p => decide (p.2 = TimerKind.throttleExpire o nm)) = none := by
      rw [getTimers_sched]
      exact hna
    refine ⟨?_, ?_, ?_⟩
    · simp only [throttleTask, h1, hd, List.getLast?_concat, Option.getD_some, jsIsInteger,
        List.dropLast_concat, primThrottle, hna, hna2, primLater, Bool.false_eq_true,
        Bool.true_eq_false, if_false, not_false_iff, getTimers_sched, updateTimers]
    · simp only [throttleTask, h1, hd, List.getLast?_concat, Option.getD_some, jsIsInteger,
        List.dropLast_concat, primThrottle, hna, hna2, primLater, Bool.false_eq_true,
        Bool.true_eq_false, if_false, not_false_iff, getTimers_sched, timersOf_updateTimers,
        getTimers_get, Option.map_some', Option.getD_some]
      exact mem_setAdd_self s.sched.nextId (timersOf s o)
    · simp only [throttleTask, h1, hd, List.getLast?_concat, Option.getD_some, jsIsInteger,
        List.dropLast_concat, primThrottle, hna, hna2, primLater, Bool.false_eq_true,
        Bool.true_eq_false, if_false, not_false_iff, getTimers_sched, updateTimers]
      exact find?_fresh s.sched.timers s.sched.nextId _ hwf.1
  · intro hfind
    unfold fireTimer
    rw [hfind]
    exact ⟨_, rfl, fun o3 => rfl, rfl⟩

theorem claimC10_witness :
    ((throttleTask 0 "f" ([JsVal.str "x"] ++ [JsVal.int 5]) st0).1 = .ok 0 ∧
      0 ∈ timersOf (throttleTask 0 "f" ([JsVal.str "x"] ++ [JsVal.int 5]) st0).2 0 ∧
      (throttleTask 0 "f" ([JsVal.str "x"] ++ [JsVal.int 5]) st0).2.sched.timers.find?
          (fun p => decide (p.1 = 0)) = some (0, .throttleExpire 0 "f")) ∧
    (∃ s2, fireTimer 0 stThrottlePend = some s2 ∧
      (∀ o3, timersOf s2 o3 = timersOf stThrottlePend o3) ∧
      s2.trace = stThrottlePend.trace) := by
  constructor
  · exact (claimC10 0 "f" [JsVal.str "x"] 5 st0 0 "f" 0 stThrottlePend).1 (by decide) (by decide)
      (by decide) rfl
  · exact (claimC10 0 "f" [JsVal.str "x"] 5 st0 0 "f" 0 stThrottlePend).2 rfl
